import Mathlib

/-!
Shallow embedding of the resin-api ingestion pipeline
(feed aggregation → dedup → content resolution → analysis →
completeness filtering → batch persistence) and proofs about it.

Asynchronous effects are modelled as `Except`-valued oracles: a rejected
promise is an `Except.error`, and `Promise.all` over a list of promises is
`promiseAll`, which yields the list of results when every promise resolves
and an error as soon as any promise rejects (observationally the behaviour
of `await Promise.all(...)`). JavaScript `string | undefined` values are
`Option String`; JS truthiness of such a value is `jsTruthy`, and the JS
short-circuit `a || b` on such values is `jsOr`.
-/

set_option linter.unusedVariables false

deriving instance DecidableEq for Except

namespace Resin

/-- Error taxonomy of the pipeline (spec section 7). -/
inductive PErr where
  | feedFetch
  | contentFetch
  | analysisSchema
  deriving DecidableEq, Repr

/-- An RSS source entry of the registry (interface RSSSource). The optional
JS field `isDisabled?: boolean` is a `Bool` defaulting to `false`
(absent and `false` are indistinguishable to the code, which only tests
truthiness). -/
structure RSSSource where
  feedUrl : String
  name : String
  id : String
  isDisabled : Bool := false
  deriving DecidableEq, Repr

/-- The fields of a parsed feed item (rss-parser `Item`) that the pipeline
reads or writes. `contentEncoded` is the feed's "content:encoded" field;
`pubDate` carries a feed-supplied published date (never read by the
pipeline). All are `string | undefined` in JS, hence `Option String`. -/
structure Item where
  link : Option String := none
  title : Option String := none
  contentEncoded : Option String := none
  summary : Option String := none
  contentSnippet : Option String := none
  creator : Option String := none
  pubDate : Option String := none
  deriving DecidableEq, Repr

/-- A (source, item) pair as produced by feed aggregation (interface RSSResult). -/
structure RSSResult where
  source : RSSSource
  item : Item
  deriving DecidableEq, Repr

/-- A structured analysis result (the zod object ArticleAnalysis). -/
structure Analysis where
  headline : String
  source : String
  summary : String
  deriving DecidableEq, Repr

/-- CONFIG.rssItemLimit: number of recent articles taken from each source. -/
def CONFIG_rssItemLimit : Nat := 50

/-- First registry entry: the enabled Fox News source. -/
def foxSource : RSSSource :=
  { feedUrl := "https://moxie.foxnews.com/google-publisher/politics.xml"
    name := "Fox News"
    id := "fox" }

/-- Second registry entry: the disabled New York Times source. -/
def nytSource : RSSSource :=
  { feedUrl := "https://rss.nytimes.com/services/xml/rss/nyt/HomePage.xml"
    name := "New York Times"
    id := "nyt"
    isDisabled := true }

/-- CONFIG.sources: the static source registry. -/
def CONFIG_sources : List RSSSource := [foxSource, nytSource]

/-- JS truthiness of a `string | undefined` value: defined and non-empty. -/
def jsTruthy : Option String → Bool
  | none => false
  | some s => s != ""

/-- JS short-circuit `a || b` on `string | undefined` values. -/
def jsOr (a b : Option String) : Option String :=
  if jsTruthy a then a else b

/-- JS coercion used by default parameters (`title = ""`): an undefined
argument becomes the empty string. -/
def jsStr (o : Option String) : String := o.getD ""

/-- Observable behaviour of `await Promise.all(ps)`: the list of results
when every promise resolves, an error as soon as any promise rejects. -/
def promiseAll {α : Type} : List (Except PErr α) → Except PErr (List α)
  | [] => .ok []
  | p :: ps =>
    match p with
    | .error e => .error e
    | .ok x =>
      match promiseAll ps with
      | .error e => .error e
      | .ok xs => .ok (x :: xs)

/-- parseFeeds generalised over the registry and the per-source limit that
the source code reads from CONFIG; `fetchFeed` is the
`rssParser.parseURL` oracle returning the feed's items. Mirrors:
disabled sources yield `[]`, enabled sources fetch, take the first
`limit` items and tag them with the source; the per-source batches are
awaited together and flattened. -/
def parseFeedsWith (sources : List RSSSource) (limit : Nat)
    (fetchFeed : RSSSource → Except PErr (List Item)) :
    Except PErr (List RSSResult) :=
  match promiseAll (sources.map (fun source =>
      if source.isDisabled then .ok []
      else
        match fetchFeed source with
        | .error e => .error e
        | .ok items =>
            .ok ((items.take limit).map (fun item =>
              { source := source, item := item })))) with
  | .error e => .error e
  | .ok batches => .ok batches.flatten

/-- parseFeeds: feed aggregation over the static CONFIG registry. -/
def parseFeeds (fetchFeed : RSSSource → Except PErr (List Item)) :
    Except PErr (List RSSResult) :=
  parseFeedsWith CONFIG_sources CONFIG_rssItemLimit fetchFeed

/-- A persisted row of the articles table, projected to the single column
the dedup filter reads (`row.url`); SQL NULL is `none`. -/
structure DBRow where
  url : Option String
  deriving DecidableEq, Repr

/-- SQL semantics of `url = ANY(urls)` for one row: a NULL url never
matches, and NULL elements of the array match nothing. -/
def sqlUrlAnyMatch (u : Option String) (urls : List (Option String)) : Bool :=
  match u with
  | none => false
  | some s => decide (some s ∈ urls)

/-- filterExistingItems: collect the candidate links, run one bulk
`SELECT * FROM articles WHERE url = ANY(urls)` against the stored rows,
and keep the candidates whose link is not among the returned urls. -/
def filterExistingItems (stored : List DBRow) (items : List RSSResult) :
    List RSSResult :=
  let urls := items.map (fun r => r.item.link)
  let existingUrls :=
    (stored.filter (fun row => sqlUrlAnyMatch row.url urls)).map DBRow.url
  items.filter (fun r => !(decide (r.item.link ∈ existingUrls)))

/-- Content resolution step of processFeeds (lines
`item.content = item["content:encoded"]` and the conditional scrape):
when the item has a truthy link and no truthy encoded content, the link
is scraped (`scrape` is the scrapeContent oracle; a network failure is an
error); otherwise the encoded content (possibly undefined) stands. -/
def resolveContent (scrape : String → Except PErr String) (item : Item) :
    Except PErr (Option String) :=
  if jsTruthy item.link && !(jsTruthy item.contentEncoded) then
    match scrape (jsStr item.link) with
    | .error e => .error e
    | .ok s => .ok (some s)
  else .ok item.contentEncoded

/-- The record assembled for each candidate by processFeeds (the object
literal at its return). The JS object has exactly these keys — in
particular no date_published key. Optional JS values stay `Option`. -/
structure ArticleRecord where
  url : Option String
  title : Option String
  publication : String
  authors : Option String
  content : Option String
  source : Option String
  headline : Option String
  summary : Option String
  deriving DecidableEq, Repr

/-- Per-candidate body of processFeeds: resolve content, run the analysis
oracle (`analyze` models analyzeContent; `.ok none` is a null parsed
response, an error is a schema-coercion failure), and assemble the
record, with `content: item.content || item.summary || item.contentSnippet`
and the three `analysis?.field` accesses. -/
def processOne (scrape : String → Except PErr String)
    (analyze : String → String → Except PErr (Option Analysis))
    (r : RSSResult) : Except PErr ArticleRecord :=
  match resolveContent scrape r.item with
  | .error e => .error e
  | .ok content =>
    match analyze (jsStr r.item.title) (jsStr content) with
    | .error e => .error e
    | .ok analysis =>
      .ok { url := r.item.link
            title := r.item.title
            publication := r.source.name
            authors := r.item.creator
            content := jsOr content (jsOr r.item.summary r.item.contentSnippet)
            source := analysis.map Analysis.source
            headline := analysis.map Analysis.headline
            summary := analysis.map Analysis.summary }

/-- The completeness predicate of the final filter in processFeeds:
`article.content && article.headline && article.summary && article.source`. -/
def isComplete (a : ArticleRecord) : Bool :=
  jsTruthy a.content && jsTruthy a.headline && jsTruthy a.summary &&
    jsTruthy a.source

/-- processFeeds: map every candidate through processOne under one
`Promise.all`, then keep only the complete records. -/
def processFeeds (scrape : String → Except PErr String)
    (analyze : String → String → Except PErr (Option Analysis))
    (feeds : List RSSResult) : Except PErr (List ArticleRecord) :=
  match promiseAll (feeds.map (processOne scrape analyze)) with
  | .error e => .error e
  | .ok articles => .ok (articles.filter isComplete)

/-- The columns list of insertArticles, in source order. -/
def insertColumns : List String :=
  ["url", "title", "publication", "authors", "date_published", "content",
   "source", "headline", "summary"]

/-- JS property access `row[col]` on the record assembled by processFeeds:
the eight keys of the object literal; every other key — in particular
"date_published" — is undefined. -/
def toRow (a : ArticleRecord) : String → Option String := fun col =>
  if col = "url" then a.url
  else if col = "title" then a.title
  else if col = "publication" then some a.publication
  else if col = "authors" then a.authors
  else if col = "content" then a.content
  else if col = "source" then a.source
  else if col = "headline" then a.headline
  else if col = "summary" then a.summary
  else none

/-- One parameterised SQL statement issued to the database: the query text
and its positional parameter values (value for `$k` at index `k - 1`). -/
structure SqlCall where
  query : String
  values : List (Option String)
  deriving DecidableEq, Repr

/-- One placeholder tuple `($start, $start+1, ...)` of n placeholders. -/
def placeholderTuple (start n : Nat) : String :=
  "(" ++ String.intercalate ", "
    ((List.range n).map (fun i => "$" ++ toString (start + i))) ++ ")"

/-- The VALUES clause of insertArticles: one tuple per row, row `rowIndex`
starting at placeholder `rowIndex * nCols + 1`. -/
def insertPlaceholders (nRows nCols : Nat) : String :=
  String.intercalate ", "
    ((List.range nRows).map (fun rowIndex =>
      placeholderTuple (rowIndex * nCols + 1) nCols))

/-- insertArticles: on an empty row list, return without issuing a write
(`none`); otherwise issue exactly one INSERT whose values are
`rows.flatMap(row => columns.map(col => row[col]))`. -/
def insertArticles (rows : List (String → Option String)) : Option SqlCall :=
  if rows.length = 0 then none
  else some
    { query := "INSERT INTO articles (" ++ String.intercalate ", " insertColumns
        ++ ") VALUES " ++ insertPlaceholders rows.length insertColumns.length
      values := rows.flatMap (fun row => insertColumns.map row) }

/-- Dedup filter followed by scrape/analysis/completeness: the batch the
trigger endpoint hands to insertArticles, given the already-stored rows
and the aggregated candidates. -/
def pipelineBatch (stored : List DBRow) (scrape : String → Except PErr String)
    (analyze : String → String → Except PErr (Option Analysis))
    (parsedFeeds : List RSSResult) : Except PErr (List ArticleRecord) :=
  processFeeds scrape analyze (filterExistingItems stored parsedFeeds)

/-- The stored table after a successful batch insert: previous rows plus
one row per batch record (projected to the url column). -/
def persist (stored : List DBRow) (batch : List ArticleRecord) : List DBRow :=
  stored ++ batch.map (fun a => { url := a.url })

/-- URL uniqueness across a list of persisted rows: no two rows share the
same (non-NULL) url. -/
def urlsUnique (rows : List DBRow) : Prop :=
  (rows.filterMap DBRow.url).Nodup

/-! Concrete inputs used to exercise the definitions. -/

/-- An enabled source. -/
def srcA : RSSSource :=
  { feedUrl := "http://a.example/feed", name := "A News", id := "A" }

/-- A second enabled source. -/
def srcB : RSSSource :=
  { feedUrl := "http://b.example/feed", name := "B News", id := "B" }

/-- A feed item carrying encoded content and a published date. -/
def itemEnc : Item :=
  { link := some "http://a.example/1"
    title := some "T1"
    contentEncoded := some "Full body"
    summary := some "Sum1"
    contentSnippet := some "Snip1"
    creator := some "Alice"
    pubDate := some "2025-01-01" }

/-- A feed item with a link but no encoded content, so it must be scraped. -/
def itemNoEnc : Item :=
  { link := some "http://bad.example/x", title := some "T2" }

/-- An item whose title makes the selective analysis oracle fail. -/
def itemBadTitle : Item :=
  { itemEnc with title := some "bad", link := some "http://a.example/2" }

/-- Candidate pairing srcA with the encoded-content item. -/
def rEnc : RSSResult := { source := srcA, item := itemEnc }

/-- Candidate pairing srcA with the item that needs scraping. -/
def rBad : RSSResult := { source := srcA, item := itemNoEnc }

/-- Candidate whose analysis will fail. -/
def rBadTitle : RSSResult := { source := srcA, item := itemBadTitle }

/-- A scrape oracle that always succeeds. -/
def scrapeAllOk : String → Except PErr String := fun _ => .ok "scraped text"

/-- A scrape oracle that always fails (every page unreachable). -/
def scrapeAllFail : String → Except PErr String := fun _ => .error .contentFetch

/-- A scrape oracle failing exactly on itemNoEnc's link. -/
def scrapeSel : String → Except PErr String := fun u =>
  if u = "http://bad.example/x" then .error .contentFetch else .ok "scraped text"

/-- An analysis oracle that always returns a fixed parsed analysis. -/
def analyzeAllOk : String → String → Except PErr (Option Analysis) := fun _ _ =>
  .ok (some { headline := "Headline", source := "AP", summary := "Summary" })

/-- An analysis oracle failing exactly on the title "bad". -/
def analyzeSel : String → String → Except PErr (Option Analysis) := fun t _ =>
  if t = "bad" then .error .analysisSchema
  else .ok (some { headline := "Headline", source := "AP", summary := "Summary" })

/-- A feed oracle under which the registry's "fox" source fails. -/
def fetchFoxFails : RSSSource → Except PErr (List Item) := fun s =>
  if s.id = "fox" then .error .feedFetch else .ok [itemEnc]

/-- A feed oracle under which srcA fails while srcB has one item. -/
def fetchAFails : RSSSource → Except PErr (List Item) := fun s =>
  if s.id = "A" then .error .feedFetch else .ok [itemEnc]

/-- A feed oracle giving every source sixty copies of itemEnc. -/
def fetchSixty : RSSSource → Except PErr (List Item) := fun _ =>
  .ok (List.replicate 60 itemEnc)

/-- The record processOne assembles from rEnc under the oracles above. -/
def recEnc : ArticleRecord :=
  { url := some "http://a.example/1"
    title := some "T1"
    publication := "A News"
    authors := some "Alice"
    content := some "Full body"
    source := some "AP"
    headline := some "Headline"
    summary := some "Summary" }

/-- A previously persisted row. -/
def rowOld : DBRow := { url := some "http://old.example/1" }

/-- The single SQL statement insertArticles issues for the one-row batch
containing recEnc. -/
def cCall : SqlCall :=
  { query := "INSERT INTO articles (url, title, publication, authors, date_published, content, source, headline, summary) VALUES ($1, $2, $3, $4, $5, $6, $7, $8, $9)"
    values := [some "http://a.example/1", some "T1", some "A News",
      some "Alice", none, some "Full body", some "AP", some "Headline",
      some "Summary"] }

/-! Helper lemmas. -/

/-- Every element of a successful promiseAll result comes from a resolved
promise of the input list. -/
theorem promiseAll_ok_mem {α : Type} {ps : List (Except PErr α)} {ys : List α}
    (h : promiseAll ps = .ok ys) : ∀ y ∈ ys, ∃ p ∈ ps, p = .ok y := by
  induction ps generalizing ys with
  | nil =>
    simp only [promiseAll, Except.ok.injEq] at h
    subst h
    intro y hy
    simp at hy
  | cons p ps ih =>
    cases p with
    | error e => simp [promiseAll] at h
    | ok x =>
      cases hps : promiseAll ps with
      | error e => simp [promiseAll, hps] at h
      | ok xs =>
        simp only [promiseAll, hps, Except.ok.injEq] at h
        subst h
        intro y hy
        rcases List.mem_cons.mp hy with rfl | hy'
        · exact ⟨.ok y, List.mem_cons_self _ _, rfl⟩
        · obtain ⟨q, hq, hqy⟩ := ih hps y hy'
          exact ⟨q, List.mem_cons_of_mem _ hq, hqy⟩

/-- Inversion of a successful processOne: the resolved content and the
analysis exist, and the record is the object literal built from them. -/
theorem processOne_ok {scrape : String → Except PErr String}
    {analyze : String → String → Except PErr (Option Analysis)}
    {r : RSSResult} {a : ArticleRecord}
    (h : processOne scrape analyze r = .ok a) :
    ∃ c analysis, resolveContent scrape r.item = .ok c ∧
      analyze (jsStr r.item.title) (jsStr c) = .ok analysis ∧
      a = { url := r.item.link
            title := r.item.title
            publication := r.source.name
            authors := r.item.creator
            content := jsOr c (jsOr r.item.summary r.item.contentSnippet)
            source := analysis.map Analysis.source
            headline := analysis.map Analysis.headline
            summary := analysis.map Analysis.summary } := by
  unfold processOne at h
  cases hres : resolveContent scrape r.item with
  | error e => rw [hres] at h; exact nomatch h
  | ok c =>
    simp only [hres] at h
    cases han : analyze (jsStr r.item.title) (jsStr c) with
    | error e => simp only [han] at h; exact nomatch h
    | ok analysis =>
      simp only [han, Except.ok.injEq] at h
      exact ⟨c, analysis, rfl, han, h.symm⟩

/-- Every record in a successful processFeeds output is complete and is the
processOne image of some input candidate. -/
theorem processFeeds_ok_mem {scrape : String → Except PErr String}
    {analyze : String → String → Except PErr (Option Analysis)}
    {feeds : List RSSResult} {out : List ArticleRecord}
    (h : processFeeds scrape analyze feeds = .ok out) :
    ∀ a ∈ out, isComplete a = true ∧
      ∃ r ∈ feeds, processOne scrape analyze r = .ok a := by
  unfold processFeeds at h
  cases hm : promiseAll (feeds.map (processOne scrape analyze)) with
  | error e => rw [hm] at h; exact nomatch h
  | ok articles =>
    rw [hm] at h
    injection h with h
    subst h
    intro a ha
    rw [List.mem_filter] at ha
    obtain ⟨ha1, ha2⟩ := ha
    refine ⟨ha2, ?_⟩
    obtain ⟨p, hp, hpa⟩ := promiseAll_ok_mem hm a ha1
    obtain ⟨r, hr, rfl⟩ := List.mem_map.mp hp
    exact ⟨r, hr, hpa⟩

/-- No candidate surviving filterExistingItems has a link equal to a
stored row's url. -/
theorem filterExistingItems_not_stored (stored : List DBRow)
    (items : List RSSResult) :
    ∀ r ∈ filterExistingItems stored items, ∀ u, r.item.link = some u →
      ∀ row ∈ stored, row.url ≠ some u := by
  intro r hr u hu row hrow heq
  unfold filterExistingItems at hr
  rw [List.mem_filter] at hr
  obtain ⟨hmem, hpred⟩ := hr
  simp only [Bool.not_eq_eq_eq_not, Bool.not_true, decide_eq_false_iff_not] at hpred
  apply hpred
  rw [List.mem_map]
  refine ⟨row, ?_, by rw [heq, hu]⟩
  rw [List.mem_filter]
  refine ⟨hrow, ?_⟩
  unfold sqlUrlAnyMatch
  rw [heq]
  simp only [decide_eq_true_eq]
  rw [List.mem_map]
  exact ⟨r, hmem, hu⟩

/-- Every candidate whose link matches no stored row's url survives
filterExistingItems. -/
theorem filterExistingItems_keeps (stored : List DBRow)
    (items : List RSSResult) :
    ∀ r ∈ items, (∀ u, r.item.link = some u → ∀ row ∈ stored, row.url ≠ some u) →
      r ∈ filterExistingItems stored items := by
  intro r hmem hnone
  unfold filterExistingItems
  rw [List.mem_filter]
  refine ⟨hmem, ?_⟩
  simp only [Bool.not_eq_eq_eq_not, Bool.not_true, decide_eq_false_iff_not]
  intro hin
  rw [List.mem_map] at hin
  obtain ⟨row, hrowmem, hrowurl⟩ := hin
  rw [List.mem_filter] at hrowmem
  obtain ⟨hrowstored, hmatch⟩ := hrowmem
  unfold sqlUrlAnyMatch at hmatch
  cases hurl : row.url with
  | none => rw [hurl] at hmatch; exact nomatch hmatch
  | some u =>
    have hlink : r.item.link = some u := by rw [← hrowurl, hurl]
    exact hnone u hlink row hrowstored hurl

/-- Indexing a flatMap whose blocks all have length L: position
ri * L + ci reads position ci of block ri. -/
theorem flatMap_getElem? {α β : Type} (g : α → List β) (L : Nat)
    (hlen : ∀ r, (g r).length = L) :
    ∀ (rows : List α) (ri ci : Nat) (r : α), rows[ri]? = some r → ci < L →
      (rows.flatMap g)[ri * L + ci]? = (g r)[ci]? := by
  intro rows
  induction rows with
  | nil => intro ri ci r hr; simp at hr
  | cons r0 rest ih =>
    intro ri ci r hr hci
    cases ri with
    | zero =>
      simp only [List.getElem?_cons_zero, Option.some.injEq] at hr
      subst hr
      rw [List.flatMap_cons]
      have hidx : 0 * L + ci = ci := by omega
      rw [hidx]
      exact List.getElem?_append_left (by rw [hlen r0]; exact hci)
    | succ ri' =>
      simp only [List.getElem?_cons_succ] at hr
      rw [List.flatMap_cons]
      have hidx : (ri' + 1) * L + ci = (g r0).length + (ri' * L + ci) := by
        rw [hlen r0]; ring
      rw [hidx, List.getElem?_append_right (Nat.le_add_right _ _),
        Nat.add_sub_cancel_left]
      exact ih ri' ci r hr hci

/-- A flatMap whose blocks all have length L has length rows.length * L. -/
theorem flatMap_length_const {α β : Type} (g : α → List β) (L : Nat)
    (hlen : ∀ r, (g r).length = L) :
    ∀ rows : List α, (rows.flatMap g).length = rows.length * L := by
  intro rows
  induction rows with
  | nil => simp
  | cons r0 rest ih =>
    rw [List.flatMap_cons, List.length_append, hlen r0, ih, List.length_cons]
    ring

/-- The SQL call of a non-empty insertArticles, explicitly. -/
theorem insertArticles_ok (rows : List (String → Option String))
    (hne : rows ≠ []) :
    insertArticles rows = some
      { query := "INSERT INTO articles (" ++ String.intercalate ", " insertColumns
          ++ ") VALUES " ++ insertPlaceholders rows.length insertColumns.length
        values := rows.flatMap (fun row => insertColumns.map row) } := by
  unfold insertArticles
  rw [if_neg (by simpa using hne)]

/-- Positional alignment of insertArticles values: the value bound for
placeholder number ri * nCols + ci + 1 is row ri's value for column ci. -/
theorem insertArticles_values_align (rows : List (String → Option String))
    (call : SqlCall) (h : insertArticles rows = some call) :
    ∀ ri ci row col, rows[ri]? = some row → insertColumns[ci]? = some col →
      call.values[ri * insertColumns.length + ci]? = some (row col) := by
  intro ri ci row col hrow hcol
  have hne : rows ≠ [] := by
    intro he
    subst he
    simp at hrow
  rw [insertArticles_ok rows hne] at h
  injection h with h
  subst h
  have hci : ci < insertColumns.length := by
    by_contra hge
    rw [List.getElem?_eq_none (by omega)] at hcol
    exact nomatch hcol
  rw [flatMap_getElem? (fun row => insertColumns.map row) insertColumns.length
    (fun r => by simp) rows ri ci row hrow hci]
  rw [List.getElem?_map, hcol]
  rfl

/-! Claim theorems. -/

/-- Claim C1, divergence of the code from it: a failure fetching one
source's feed rejects the whole parseFeeds batch instead of being scoped
to that source. With the real registry, a fetch failure of the enabled
"fox" source makes parseFeeds itself fail; with a registry of two enabled
sources where only the first fails, the second source's items are lost
with the whole batch as well. -/
theorem C1_fetch_failure_aborts_batch :
    parseFeeds fetchFoxFails = .error .feedFetch ∧
    parseFeedsWith [srcA, srcB] CONFIG_rssItemLimit fetchAFails =
      .error .feedFetch := by
  exact ⟨by decide, by decide⟩

/-- Claim C2: every article in a successful processFeeds output has truthy
(defined and non-empty) content, headline, summary and source, and its
content is the JS fallback chain value: the resolved encoded/scraped
content, else the feed summary, else the feed content snippet, first
truthy value winning. -/
theorem C2_completeness {scrape : String → Except PErr String}
    {analyze : String → String → Except PErr (Option Analysis)}
    {feeds : List RSSResult} {out : List ArticleRecord}
    (h : processFeeds scrape analyze feeds = .ok out) :
    ∀ a ∈ out,
      (jsTruthy a.content = true ∧ jsTruthy a.headline = true ∧
        jsTruthy a.summary = true ∧ jsTruthy a.source = true) ∧
      ∃ r ∈ feeds, ∃ c, resolveContent scrape r.item = .ok c ∧
        a.content = jsOr c (jsOr r.item.summary r.item.contentSnippet) := by
  intro a ha
  obtain ⟨hcomp, r, hr, hone⟩ := processFeeds_ok_mem h a ha
  obtain ⟨c, analysis, hres, han, haeq⟩ := processOne_ok hone
  subst haeq
  unfold isComplete at hcomp
  simp only [Bool.and_eq_true] at hcomp
  exact ⟨⟨hcomp.1.1.1, hcomp.1.1.2, hcomp.1.2, hcomp.2⟩, r, hr, c, hres, rfl⟩

/-- Witness for C2 at a concrete input: a candidate with encoded content,
an always-failing scraper and a fixed analysis oracle yields the one
complete record recEnc. -/
theorem C2_witness :
    (jsTruthy recEnc.content = true ∧ jsTruthy recEnc.headline = true ∧
      jsTruthy recEnc.summary = true ∧ jsTruthy recEnc.source = true) ∧
    ∃ r ∈ [rEnc], ∃ c, resolveContent scrapeAllFail r.item = .ok c ∧
      recEnc.content = jsOr c (jsOr r.item.summary r.item.contentSnippet) :=
  @C2_completeness scrapeAllFail analyzeAllOk [rEnc] [recEnc] (by decide) recEnc
    (by simp)

/-- Counterexample to claim C3 as stated: the dedup filter checks only
against storage, so a batch holding the same URL twice passes whole, and
after the batch insert two persisted rows share one url. -/
theorem C3_counterexample :
    pipelineBatch [] scrapeAllFail analyzeAllOk [rEnc, rEnc] =
      .ok [recEnc, recEnc] ∧
    ¬ urlsUnique (persist [] [recEnc, recEnc]) := by
  constructor
  · decide
  · unfold urlsUnique
    decide

/-- Claim C3 amended: the dedup filter enforces URL uniqueness only
between a batch and the rows already stored when it ran — no record of a
successful pipeline batch carries a url equal to a previously stored
row's url. Uniqueness inside one batch is not enforced. -/
theorem C3_amended {stored : List DBRow} {scrape : String → Except PErr String}
    {analyze : String → String → Except PErr (Option Analysis)}
    {feeds : List RSSResult} {batch : List ArticleRecord}
    (h : pipelineBatch stored scrape analyze feeds = .ok batch) :
    ∀ a ∈ batch, ∀ u, a.url = some u → ∀ row ∈ stored, row.url ≠ some u := by
  intro a ha u hu row hrow
  unfold pipelineBatch at h
  obtain ⟨hcomp, r, hr, hone⟩ := processFeeds_ok_mem h a ha
  obtain ⟨c, analysis, hres, han, haeq⟩ := processOne_ok hone
  subst haeq
  exact filterExistingItems_not_stored stored feeds r hr u hu row hrow

/-- Witness for the amended C3 at a concrete input: with one stored row
and one fresh candidate, the persisted batch record's url differs from
the stored row's url. -/
theorem C3_amended_witness : rowOld.url ≠ some "http://a.example/1" :=
  @C3_amended [rowOld] scrapeAllFail analyzeAllOk [rEnc] [recEnc] (by decide)
    recEnc (by simp) "http://a.example/1" rfl rowOld (by simp)

/-- Claim C4, divergence of the code from it: a scrape failure for one
candidate rejects the whole processFeeds batch instead of degrading that
item to empty content; the same run without the failing candidate would
have produced an article. -/
theorem C4_scrape_failure_aborts_batch :
    processFeeds scrapeSel analyzeAllOk [rBad, rEnc] = .error .contentFetch ∧
    processFeeds scrapeSel analyzeAllOk [rEnc] = .ok [recEnc] := by
  exact ⟨by decide, by decide⟩

/-- Claim C5, divergence of the code from it: an analysis schema failure
for one candidate rejects the whole processFeeds batch instead of being
treated as a missing analysis for that item; the same run without the
failing candidate would have produced an article. -/
theorem C5_analysis_failure_aborts_batch :
    processFeeds scrapeAllOk analyzeSel [rBadTitle, rEnc] =
      .error .analysisSchema ∧
    processFeeds scrapeAllOk analyzeSel [rEnc] = .ok [recEnc] := by
  exact ⟨by decide, by decide⟩

/-- Claim C6: the dedup filter output contains no candidate whose link
equals a stored row's url, keeps every candidate whose link matches no
stored row, and is a sublist of the input (relative order preserved). -/
theorem C6_dedup_filter (stored : List DBRow) (items : List RSSResult) :
    (∀ r ∈ filterExistingItems stored items, ∀ u, r.item.link = some u →
      ∀ row ∈ stored, row.url ≠ some u) ∧
    (∀ r ∈ items,
      (∀ u, r.item.link = some u → ∀ row ∈ stored, row.url ≠ some u) →
      r ∈ filterExistingItems stored items) ∧
    (filterExistingItems stored items).Sublist items :=
  ⟨filterExistingItems_not_stored stored items,
   filterExistingItems_keeps stored items,
   List.filter_sublist _⟩

/-- Witness for C6 at a concrete input: with one stored url, the fresh
candidate is kept and the output is a sublist of the input. -/
theorem C6_witness :
    rBad ∈ filterExistingItems [{ url := some "http://a.example/1" }]
      [rEnc, rBad] ∧
    (filterExistingItems [{ url := some "http://a.example/1" }]
      [rEnc, rBad]).Sublist [rEnc, rBad] := by
  constructor
  · apply (C6_dedup_filter [{ url := some "http://a.example/1" }]
      [rEnc, rBad]).2.1 rBad (by decide)
    intro u hu row hrow
    have hu2 : some "http://bad.example/x" = some u := hu
    injection hu2 with hu3
    subst hu3
    simp only [List.mem_singleton] at hrow
    subst hrow
    decide
  · exact (C6_dedup_filter _ _).2.2

/-- Claim C7: with truthy encoded content the resolver returns that
content for every scrape oracle (scraping is never attempted, the result
cannot depend on it); with no truthy link, likewise; and it consults the
scrape oracle exactly when a truthy link exists and no truthy encoded
content does. -/
theorem C7_content_resolution (item : Item) :
    (jsTruthy item.contentEncoded = true →
      ∀ scrape : String → Except PErr String,
        resolveContent scrape item = .ok item.contentEncoded) ∧
    ((jsTruthy item.link = false ∨ jsTruthy item.contentEncoded = true) →
      ∀ scrape : String → Except PErr String,
        resolveContent scrape item = .ok item.contentEncoded) ∧
    (jsTruthy item.link = true → jsTruthy item.contentEncoded = false →
      ∀ scrape : String → Except PErr String,
        resolveContent scrape item =
          match scrape (jsStr item.link) with
          | .error e => .error e
          | .ok s => .ok (some s)) := by
  refine ⟨?_, ?_, ?_⟩
  · intro henc scrape
    unfold resolveContent
    simp [henc]
  · intro hcond scrape
    unfold resolveContent
    rcases hcond with hl | he
    · simp [hl]
    · simp [he]
  · intro hl he scrape
    unfold resolveContent
    simp [hl, he]

/-- Witness for C7 at a concrete input: encoded content is returned even
when every page is unreachable (the spec's own acceptance check). -/
theorem C7_witness :
    resolveContent scrapeAllFail itemEnc = .ok itemEnc.contentEncoded :=
  (C7_content_resolution itemEnc).1 (by decide) scrapeAllFail

/-- Claim C8: for every registry source, a successful parseFeeds output
holds at most CONFIG.rssItemLimit items of an enabled source and zero
items of a disabled one, for every feed oracle. -/
theorem C8_per_source_limit {fetchFeed : RSSSource → Except PErr (List Item)}
    {out : List RSSResult} (h : parseFeeds fetchFeed = .ok out) :
    ∀ s ∈ CONFIG_sources,
      (s.isDisabled = false →
        (out.filter (fun r => decide (r.source = s))).length ≤
          CONFIG_rssItemLimit) ∧
      (s.isDisabled = true →
        (out.filter (fun r => decide (r.source = s))).length = 0) := by
  have hfd : foxSource.isDisabled = false := rfl
  have hnd : nytSource.isDisabled = true := rfl
  cases hfox : fetchFeed foxSource with
  | error e =>
    exfalso
    unfold parseFeeds parseFeedsWith CONFIG_sources at h
    simp [promiseAll, hfox, hfd, hnd] at h
  | ok items =>
    unfold parseFeeds parseFeedsWith CONFIG_sources CONFIG_rssItemLimit at h
    simp [promiseAll, hfox, hfd, hnd] at h
    intro s hs
    have hlen : out.length ≤ CONFIG_rssItemLimit := by
      subst h
      simp only [List.length_take, List.length_map, CONFIG_rssItemLimit]
      omega
    have hbound : ∀ p : RSSResult → Bool,
        (out.filter p).length ≤ CONFIG_rssItemLimit :=
      fun p => le_trans (List.length_filter_le p out) hlen
    simp only [CONFIG_sources, List.mem_cons, List.mem_singleton] at hs
    rcases hs with rfl | hs2
    · exact ⟨fun _ => hbound _, fun hdis => absurd hdis (by decide)⟩
    · rcases hs2 with rfl | hfalse
      · refine ⟨fun _ => hbound _, fun _ => ?_⟩
        subst h
        rw [List.filter_eq_nil_iff.mpr ?_]
        · rfl
        · intro a ha
          obtain ⟨i, hi, rfl⟩ := List.mem_map.mp (List.mem_of_mem_take ha)
          simp only [decide_eq_true_eq]
          intro hco
          have hne2 : foxSource ≠ nytSource := by decide
          exact hne2 hco
      · exact absurd hfalse (List.not_mem_nil s)

/-- Witness for C8 at a concrete input: a feed of sixty items contributes
exactly fifty aggregated items for the enabled fox source, within the
limit. -/
theorem C8_witness :
    ((List.replicate 50 ({ source := foxSource, item := itemEnc } :
      RSSResult)).filter (fun r => decide (r.source = foxSource))).length ≤
      CONFIG_rssItemLimit := by
  have h := @C8_per_source_limit fetchSixty
    (List.replicate 50 { source := foxSource, item := itemEnc }) (by decide)
  exact (h foxSource (by decide)).1 rfl

/-- Claim C9: insertArticles on an empty list issues no write; on a
non-empty list it issues one INSERT naming the nine columns in order,
binding rows.length * 9 values, the value for placeholder number
ri * 9 + ci + 1 being row ri's value for column ci. -/
theorem C9_insert_shape (rows : List (String → Option String)) :
    (rows = [] → insertArticles rows = none) ∧
    (rows ≠ [] → ∃ call, insertArticles rows = some call ∧
      call.query = "INSERT INTO articles (url, title, publication, authors, date_published, content, source, headline, summary) VALUES "
        ++ insertPlaceholders rows.length insertColumns.length ∧
      call.values.length = rows.length * insertColumns.length ∧
      (∀ ri ci row col, rows[ri]? = some row → insertColumns[ci]? = some col →
        call.values[ri * insertColumns.length + ci]? = some (row col))) := by
  constructor
  · intro he
    subst he
    rfl
  · intro hne
    refine ⟨_, insertArticles_ok rows hne, ?_, ?_, ?_⟩
    · show "INSERT INTO articles (" ++ String.intercalate ", " insertColumns ++
        ") VALUES " ++ insertPlaceholders rows.length insertColumns.length = _
      rw [show ("INSERT INTO articles (" ++ String.intercalate ", " insertColumns
        ++ ") VALUES ") = "INSERT INTO articles (url, title, publication, authors, date_published, content, source, headline, summary) VALUES "
        from by decide]
    · exact flatMap_length_const _ _ (fun f => List.length_map _ _) rows
    · exact insertArticles_values_align rows _ (insertArticles_ok rows hne)

/-- Witness for C9 at concrete inputs: the empty no-op and, for a one-row
batch, the value bound for the date_published placeholder. -/
theorem C9_witness :
    insertArticles ([] : List (String → Option String)) = none ∧
    ∃ call, insertArticles [toRow recEnc] = some call ∧
      call.values[0 * insertColumns.length + 4]? =
        some (toRow recEnc "date_published") := by
  refine ⟨(C9_insert_shape []).1 rfl, ?_⟩
  obtain ⟨call, hc, hq, hlen, halign⟩ := (C9_insert_shape [toRow recEnc]).2
    (by simp)
  exact ⟨call, hc, halign 0 4 (toRow recEnc) "date_published" rfl rfl⟩

/-- Claim C10: the records assembled by processFeeds carry no
date_published key (JS access yields undefined even when the feed item
had a published date), so every row of the batch insert binds an
undefined value for the date_published column (index 4 of its tuple). -/
theorem C10_no_date_published {scrape : String → Except PErr String}
    {analyze : String → String → Except PErr (Option Analysis)}
    {feeds : List RSSResult} {out : List ArticleRecord} {call : SqlCall}
    (h1 : processFeeds scrape analyze feeds = .ok out)
    (h2 : insertArticles (out.map toRow) = some call) :
    (∀ a ∈ out, toRow a "date_published" = none) ∧
    (∀ ri row, (out.map toRow)[ri]? = some row →
      call.values[ri * insertColumns.length + 4]? = some none) := by
  constructor
  · intro a ha
    rfl
  · intro ri row hri
    have h3 := insertArticles_values_align (out.map toRow) call h2 ri 4 row
      "date_published" hri rfl
    rw [h3]
    rw [List.getElem?_map] at hri
    cases hout : out[ri]? with
    | none => rw [hout] at hri; exact nomatch hri
    | some a =>
      rw [hout] at hri
      injection hri with hri
      rw [← hri]
      rfl

/-- Witness for C10 at a concrete input: the feed item carried a published
date, yet the bound value for the date_published placeholder of the
inserted row is undefined. -/
theorem C10_witness :
    itemEnc.pubDate = some "2025-01-01" ∧
    cCall.values[0 * insertColumns.length + 4]? = some none := by
  refine ⟨rfl, ?_⟩
  exact (@C10_no_date_published scrapeAllFail analyzeAllOk [rEnc] [recEnc] cCall
    (by decide) (by decide)).2 0 (toRow recEnc) rfl

end Resin
